import Mathlib

/-
Verification development for the cryptobot trading core.

The embedding covers the Signal Engine (src/core/strategy.py, class Strategy),
the Indicator Engine length guard (Strategy.calculate_indicators) and the
Backtest Simulator (src/backtest.py, class Backtester).

Modelling conventions:
- Floating point arithmetic in the source is modelled as exact rational
  arithmetic over the field of rationals; decimal literals such as 1.2 are the
  corresponding rationals (6/5).
- Timestamps (pandas Timestamp row.name) are modelled as integers counting
  seconds; a Timedelta turned into milliseconds multiplies the difference in
  seconds by 1000, exactly as total_seconds times 1000 does.
- Integer-coerced configuration parameters are modelled as rationals or
  naturals as used; boolean toggles are Bool.
- Python values that may be None are modelled as Option.
- The mutable Strategy instance attributes (last_entry_time, position_open,
  highest_price, entry_price, is_range_trading) are a state record threaded
  explicitly; each signal call returns the pair (returned bool, new state).
- datetime.datetime.now() is an explicit parameter `now` of the signal calls
  and of the simulator run, so that dependence on the wall clock is visible.
-/

namespace Cryptobot

/-- A raw OHLCV bar (one row of the input DataFrame, before indicators). -/
structure Bar where
  time : ℤ
  openPrice : ℚ
  high : ℚ
  low : ℚ
  close : ℚ
  volume : ℚ
  deriving DecidableEq

/-- An enriched bar: one row of the DataFrame after calculate_indicators has
added the indicator columns consulted by entry_signal and exit_signal.
The fields entry_signal_generated and exit_signal_generated are the tracking
columns added at lines 89-90 of strategy.py; they are initialised to False and
are never updated on the frame during a backtest (the row-level writes touch a
per-iteration copy only), so in a backtest they stay False. -/
structure Row where
  time : ℤ
  close : ℚ
  volume : ℚ
  sma_short : ℚ
  sma_long : ℚ
  rsi : ℚ
  macd : ℚ
  macd_signal : ℚ
  atr : ℚ
  atr_sma : ℚ
  adx : ℚ
  volume_sma : ℚ
  bollinger_upper : ℚ
  bollinger_lower : ℚ
  supertrend : ℤ
  entry_signal_generated : Bool
  exit_signal_generated : Bool
  deriving DecidableEq

/-- The strategy configuration (config["strategy"] keys consulted by the
embedded code) together with the one config["general"] key the Signal Engine
reads (lateral_mode). -/
structure StratConfig where
  sma_short : ℕ
  sma_long : ℕ
  rsi_period : ℕ
  macd_fast : ℕ
  macd_slow : ℕ
  macd_signal : ℕ
  atr_period : ℕ
  adx_period : ℕ
  volume_sma_period : ℕ
  bollinger_period : ℕ
  lateral_adx_threshold : ℚ
  macd_threshold : ℚ
  rsi_threshold : ℚ
  adx_threshold : ℚ
  use_supertrend : Bool
  use_adx_positive : Bool
  use_macd_positive : Bool
  lateral_mode : Bool
  support_margin : ℚ
  resistance_margin : ℚ
  trailing_stop_percentage : ℚ
  stop_loss_atr_multiplier : ℚ
  stop_loss_multiplier : ℚ
  take_profit_multiplier : ℚ
  time_based_stop_days : ℕ
  time_based_stop_loss_percent : ℚ
  deriving DecidableEq

/-- The mutable per-instance state of class Strategy
(strategy.py lines 71-75). -/
structure StratState where
  last_entry_time : Option ℤ
  position_open : Bool
  highest_price : Option ℚ
  entry_price : Option ℚ
  is_range_trading : Bool
  deriving DecidableEq

/-- The initial Strategy state set in the constructor (lines 71-75). -/
def initStrat : StratState :=
  { last_entry_time := none, position_open := false, highest_price := none,
    entry_price := none, is_range_trading := false }

/-- The conjunction of the range_conditions dict (strategy.py lines 281-286):
lateral_market, buy_near_support, volume_confirmation, rsi_not_oversold. -/
def rangeSignal (cfg : StratConfig) (row : Row) : Bool :=
  decide (row.adx < cfg.lateral_adx_threshold) &&
  decide (row.close < row.bollinger_lower * cfg.support_margin * (102/100 : ℚ)) &&
  decide (row.volume > (3/2 : ℚ) * row.volume_sma) &&
  decide (row.rsi > (20 : ℚ))

/-- The three main trend conditions (strategy.py lines 290-292, selected at
line 308): sma_crossover, macd_above_signal, rsi_below_threshold. -/
def trendMainPass (cfg : StratConfig) (row p : Row) : Bool :=
  (decide (row.sma_short > row.sma_long) && decide (p.sma_short > p.sma_long)) &&
  decide (row.macd > row.macd_signal - cfg.macd_threshold) &&
  decide (row.rsi < cfg.rsi_threshold)

/-- The number of satisfied secondary trend conditions (strategy.py lines
293-297, summed at line 311): volume_above_sma, supertrend_uptrend, adx_trend,
macd_positive, volatility_filter. -/
def trendSecondaryCount (cfg : StratConfig) (row : Row) : ℕ :=
  (decide (row.volume > (6/5 : ℚ) * row.volume_sma)).toNat +
  (!cfg.use_supertrend || decide (row.supertrend = 1)).toNat +
  (!cfg.use_adx_positive || decide (row.adx > cfg.adx_threshold)).toNat +
  (!cfg.use_macd_positive || decide (row.macd > 0)).toNat +
  (decide (row.atr > row.atr_sma)).toNat

/-- The mode dispatch of entry_signal (strategy.py lines 300-312): in a
sideways market with lateral mode enabled all range conditions must hold; in
every other case the three main trend conditions must hold together with at
least 3 of the 5 secondary conditions. -/
def entryDecision (cfg : StratConfig) (row p : Row) : Bool :=
  if cfg.lateral_mode && decide (row.adx < cfg.lateral_adx_threshold) then
    rangeSignal cfg row
  else trendMainPass cfg row p && decide (3 ≤ trendSecondaryCount cfg row)

/-- Strategy.entry_signal (strategy.py lines 249-328) on the backtest path
(is_backtest = True, so the most-recent-candle check at lines 266-270 is
skipped). `prev` is the row one position before `row` in the DataFrame; it is
none when row is the first row, in which case the get_loc guard at line 271
returns False. The is_range_trading attribute is written in both dispatch
branches even when no signal fires (lines 305 and 313). The catch-all
exception handler returns False; it is not reachable in this total model. -/
def entrySignal (cfg : StratConfig) (now : ℤ) (s : StratState) (row : Row)
    (prev : Option Row) : Bool × StratState :=
  if now < row.time then (false, s)
  else if row.entry_signal_generated || s.position_open then (false, s)
  else
    match prev with
    | none => (false, s)
    | some p =>
      let signal := entryDecision cfg row p
      let s1 := { s with is_range_trading :=
        if cfg.lateral_mode && decide (row.adx < cfg.lateral_adx_threshold) then signal
        else false }
      if signal then
        (true,
          { s1 with
            last_entry_time := some row.time
            position_open := true
            highest_price := some row.close
            entry_price := some row.close })
      else (false, s1)

/-- The exit condition evaluation of exit_signal (strategy.py lines 356-384)
given the regime flag, the entry timestamp le, the updated high-water mark hp
and the entry price ep. The stop_loss and dynamic_stop_loss expressions at
lines 358-360 are the same formula and their min is kept as in the source. -/
def exitDecision (cfg : StratConfig) (isRange : Bool) (row : Row) (le : ℤ)
    (hp ep : ℚ) : Bool :=
  let trailingStop := hp * (1 - cfg.trailing_stop_percentage)
  let stopLoss := ep - cfg.stop_loss_atr_multiplier * row.atr * cfg.stop_loss_multiplier
  let dynamicStopLoss := ep - cfg.stop_loss_atr_multiplier * row.atr * cfg.stop_loss_multiplier
  let stopLoss2 := min stopLoss dynamicStopLoss
  let takeProfit := ep + cfg.stop_loss_atr_multiplier * row.atr * cfg.take_profit_multiplier
  let supertrendExit := cfg.use_supertrend && decide (row.supertrend = 0)
  let durationMs := ((row.time - le : ℤ) : ℚ) * 1000
  let profitPercent := (row.close - ep) / ep * 100
  let timeBasedStop :=
    decide (durationMs < (cfg.time_based_stop_days : ℚ) * 24 * 60 * 60 * 1000) &&
    decide (profitPercent < cfg.time_based_stop_loss_percent)
  let sellNearResistance := decide (row.close > row.bollinger_upper * cfg.resistance_margin)
  let rangeExit := isRange && sellNearResistance
  let trendExit :=
    decide (row.macd < row.macd_signal - cfg.macd_threshold) ||
    decide (row.close < trailingStop) ||
    decide (row.close < stopLoss2) ||
    decide (row.close > takeProfit) ||
    supertrendExit || timeBasedStop
  if isRange then rangeExit else trendExit

/-- Strategy.exit_signal (strategy.py lines 331-398) on the backtest path.
The guard at line 349 returns False when a position is not open or the row is
the entry candle. States that break the open-position invariant
(position_open true while one of the tracked fields is None) would raise
inside the body and be turned into False by the exception handler; they are
modelled by the catch-all match arm. The write of exit_signal_generated onto
the row copy at line 388 does not reach the frame and is not modelled. -/
def exitSignal (cfg : StratConfig) (now : ℤ) (s : StratState) (row : Row) :
    Bool × StratState :=
  if now < row.time then (false, s)
  else if row.exit_signal_generated || !s.position_open ||
      decide (s.last_entry_time = some row.time) then (false, s)
  else
    match s.last_entry_time, s.highest_price, s.entry_price with
    | some le, some hp0, some ep =>
      let hp := max hp0 row.close
      if exitDecision cfg s.is_range_trading row le hp ep then
        (true,
          { last_entry_time := none
            position_open := false
            highest_price := none
            entry_price := none
            is_range_trading := false })
      else (false, { s with highest_price := some hp })
    | _, _, _ => (false, s)

/-- The Backtester construction parameters used by run and calculate_metrics
(backtest.py lines 26-53): initial capital, the per-side fee rate, the
fraction of capital invested per trade, and the spread and slippage read from
config["general"]. -/
structure BTConfig where
  initial_capital : ℚ
  trade_fee : ℚ
  investment_fraction : ℚ
  spread : ℚ
  slippage : ℚ
  deriving DecidableEq

/-- The simulator-local open position dict built at backtest.py lines 86-91. -/
structure OpenPos where
  trade_id : ℕ
  entry_price : ℚ
  entry_time : ℤ
  shares : ℚ
  deriving DecidableEq

/-- A closed trade as appended to self.trades (backtest.py lines 102-110 and
126-134): the position dict extended with exit price, exit time and profit. -/
structure TradeRec where
  trade_id : ℕ
  entry_price : ℚ
  entry_time : ℤ
  exit_price : ℚ
  exit_time : ℤ
  shares : ℚ
  profit : ℚ
  deriving DecidableEq

/-- The mutable simulator state threaded through Backtester.run: capital,
the trade ledger, the trade id counter, the local position variable of the
loop, and the Strategy instance state. -/
structure BTState where
  capital : ℚ
  trades : List TradeRec
  trade_id : ℕ
  position : Option OpenPos
  strat : StratState
  deriving DecidableEq

/-- The state at the top of Backtester.run (backtest.py lines 40-47, 72). -/
def btInit (bt : BTConfig) : BTState :=
  { capital := bt.initial_capital, trades := [], trade_id := 0,
    position := none, strat := initStrat }

/-- Closing accounting shared by the exit-signal close (backtest.py lines
101-107) and the end-of-data forced close (lines 125-131): the exit price is
the base close price adjusted by spread and slippage, profit is gross profit
minus the fee on both legs. -/
def closeTrade (bt : BTConfig) (pos : OpenPos) (basePrice : ℚ) (t : ℤ) : TradeRec :=
  let exitPrice := basePrice * (1 - bt.spread - bt.slippage)
  let gross := (exitPrice - pos.entry_price) * pos.shares
  let fee := (pos.entry_price + exitPrice) * pos.shares * bt.trade_fee
  { trade_id := pos.trade_id
    entry_price := pos.entry_price
    entry_time := pos.entry_time
    exit_price := exitPrice
    exit_time := t
    shares := pos.shares
    profit := gross - fee }

/-- One iteration of the loop in Backtester.run (backtest.py lines 73-115).
While no position is open, entry_signal is queried; on a positive result the
entry price is the close adjusted by spread and slippage, the invested amount
is capital times investment_fraction, and the loop continues to the next bar
(one decision per bar). While a position is open, exit_signal is queried; on a
positive result the trade is closed, appended, and the profit compounds into
capital; line 114 also clears strategy.position_open. -/
def btStep (cfg : StratConfig) (bt : BTConfig) (now : ℤ) (st : BTState)
    (rp : Row × Option Row) : BTState :=
  match st.position with
  | none =>
    let res := entrySignal cfg now st.strat rp.1 rp.2
    if res.1 then
      let entryPrice := rp.1.close * (1 + bt.spread + bt.slippage)
      let shares := st.capital * bt.investment_fraction / entryPrice
      { st with
        strat := res.2
        trade_id := st.trade_id + 1
        position := some
          { trade_id := st.trade_id + 1
            entry_price := entryPrice
            entry_time := rp.1.time
            shares := shares } }
    else { st with strat := res.2 }
  | some pos =>
    let res := exitSignal cfg now st.strat rp.1
    if res.1 then
      let tr := closeTrade bt pos rp.1.close rp.1.time
      { capital := st.capital + tr.profit
        trades := st.trades ++ [tr]
        trade_id := st.trade_id
        position := none
        strat := { res.2 with position_open := false } }
    else { st with strat := res.2 }

/-- Pairs each row with its predecessor in the frame, which is what
data.index.get_loc(idx) - 1 resolves to during the chronological pass. -/
def pairWithPrev : List Row → Option Row → List (Row × Option Row)
  | [], _ => []
  | r :: rest, p => (r, p) :: pairWithPrev rest (some r)

/-- The main loop of Backtester.run (backtest.py lines 72-119). -/
def btLoop (cfg : StratConfig) (bt : BTConfig) (now : ℤ) (rows : List Row) : BTState :=
  (pairWithPrev rows none).foldl (btStep cfg bt now) (btInit bt)

/-- The end-of-data forced close (backtest.py lines 121-136): if a position is
still open after the loop it is closed at the last close price with the same
accounting; only the simulator-local position is cleared, the Strategy state
is not touched. -/
def finalClose (bt : BTConfig) (st : BTState) (rows : List Row) : BTState :=
  match st.position, rows.getLast? with
  | some pos, some lastRow =>
    let tr := closeTrade bt pos lastRow.close lastRow.time
    { st with
      capital := st.capital + tr.profit
      trades := st.trades ++ [tr]
      position := none }
  | _, _ => st

/-- Backtester.run (backtest.py lines 56-138) over an already enriched row
sequence: the empty-data guard at lines 62-64 raises (modelled as none),
otherwise the loop runs and any remaining position is force-closed. The
indicator pass invoked at line 67 is modelled separately by
calculateIndicators, whose output feeds this run. -/
def runBacktest (cfg : StratConfig) (bt : BTConfig) (now : ℤ) (rows : List Row) :
    Option BTState :=
  if rows.isEmpty then none
  else some (finalClose bt (btLoop cfg bt now rows) rows)

/-- win_rate (backtest.py line 150): winning trades over total trades, 0 when
the ledger is empty. -/
def winRate (trades : List TradeRec) : ℚ :=
  if 0 < trades.length then
    ((trades.filter (fun t => decide (0 < t.profit))).length : ℚ) / (trades.length : ℚ)
  else 0

/-- The equity curve of calculate_metrics (backtest.py lines 160-162): start
at the initial capital and append the running value after each trade. -/
def equityCurve (initial : ℚ) : List TradeRec → List ℚ
  | [] => [initial]
  | tr :: rest => initial :: equityCurve (initial + tr.profit) rest

/-- np.maximum.accumulate: the running maximum of a list. -/
def runningMaxAux (m : ℚ) : List ℚ → List ℚ
  | [] => []
  | x :: rest => max m x :: runningMaxAux (max m x) rest

/-- np.maximum.accumulate applied to the equity array. -/
def runningMax : List ℚ → List ℚ
  | [] => []
  | x :: rest => x :: runningMaxAux x rest

/-- np.min over a nonempty array; the empty case never arises because the
equity curve always contains the initial capital. -/
def listMin : List ℚ → ℚ
  | [] => 0
  | x :: rest => rest.foldl min x

/-- max_drawdown (backtest.py line 164):
min(0, min(equity - np.maximum.accumulate(equity))). -/
def maxDrawdown (equity : List ℚ) : ℚ :=
  min 0 (listMin (List.zipWith (fun a b => a - b) equity (runningMax equity)))

/-- buy-and-hold profit (backtest.py lines 167-180): from the first trade
entry price to the last trade exit price on initial_capital, 0 with no
trades. -/
def buyHoldProfit (initial : ℚ) : List TradeRec → ℚ
  | [] => 0
  | t0 :: rest =>
    let lastT := (t0 :: rest).getLast (List.cons_ne_nil t0 rest)
    (lastT.exit_price - t0.entry_price) * (initial / t0.entry_price)

/-- Duration of one trade in hours (backtest.py line 192): total seconds of
exit_time - entry_time divided by 3600. -/
def tradeDurationHours (t : TradeRec) : ℚ :=
  ((t.exit_time - t.entry_time : ℤ) : ℚ) / 3600

/-- avg_trade_duration_hours (backtest.py line 193): 0 when there are no
trades. -/
def avgTradeDurationHours (trades : List TradeRec) : ℚ :=
  if 0 < trades.length then
    (trades.map tradeDurationHours).sum / (trades.length : ℚ)
  else 0

/-- np.mean of a list of rationals. -/
def listMean (xs : List ℚ) : ℚ := xs.sum / (xs.length : ℚ)

/-- The square of np.std with its default ddof = 0: the population variance,
the mean of the squared deviations from the mean. The source compares
np.std(xs) with 0; since the standard deviation of a real sample is zero
exactly when this variance is zero, the guards below test the variance. -/
def listVar (xs : List ℚ) : ℚ :=
  listMean (xs.map (fun x => (x - listMean xs) ^ 2))

/-- The period returns fed to the ratio metrics (backtest.py line 184):
np.diff(equity) / equity[:-1] when the curve has more than one point,
otherwise the placeholder [0]. -/
def returnsOf (equity : List ℚ) : List ℚ :=
  if 1 < equity.length then
    List.zipWith (fun a b => (b - a) / a) equity (equity.drop 1)
  else [0]

/-- sharpe_ratio (backtest.py line 185): mean over standard deviation times
the square root of 252, and 0 when the standard deviation is 0. The square
root forces the value into the reals; the zero guard itself is exact. -/
noncomputable def sharpe (equity : List ℚ) : ℝ :=
  let r := returnsOf equity
  if listVar r = 0 then 0
  else ((listMean r : ℚ) : ℝ) / Real.sqrt ((listVar r : ℚ) : ℝ) * Real.sqrt 252

/-- downside_returns (backtest.py line 188): each return clipped to at most
0. -/
def downside (r : List ℚ) : List ℚ := r.map (fun x => min x 0)

/-- sortino_ratio (backtest.py line 189): mean of all returns over the
standard deviation of the downside returns times the square root of 252, and
0 when that standard deviation is 0. -/
noncomputable def sortino (equity : List ℚ) : ℝ :=
  let r := returnsOf equity
  let d := downside r
  if listVar d = 0 then 0
  else ((listMean r : ℚ) : ℝ) / Real.sqrt ((listVar d : ℚ) : ℝ) * Real.sqrt 252

/-- The length guard of Strategy.calculate_indicators (strategy.py lines
93-97): the maximum of the configured lookbacks and the fixed Ichimoku period
52. -/
def minPeriods (cfg : StratConfig) : ℕ :=
  max cfg.sma_long (max cfg.rsi_period (max cfg.macd_slow (max cfg.atr_period
    (max cfg.adx_period (max cfg.bollinger_period 52)))))

/-- A rolling simple mean with full-window semantics (pandas rolling(n).mean()
with the default min_periods): at index i the value is defined only once n
observations are available. -/
def rollingMeanAt (n : ℕ) (xs : List ℚ) (i : ℕ) : Option ℚ :=
  if 0 < n ∧ n ≤ i + 1 then some ((((xs.drop (i + 1 - n)).take n).sum) / (n : ℚ))
  else none

/-- A rolling mean over a column that itself has undefined leading values
(pandas propagates NaN through a window that contains one). -/
def rollingMeanOptAt (n : ℕ) (xs : List (Option ℚ)) (i : ℕ) : Option ℚ :=
  if 0 < n ∧ n ≤ i + 1 then
    let w := (xs.drop (i + 1 - n)).take n
    if w.all Option.isSome then some (((w.map (fun o => o.getD 0)).sum) / (n : ℚ))
    else none
  else none

/-- The recursive exponential moving average tail: each value is
alpha * x + (1 - alpha) * previous. -/
def emaAux (al : ℚ) (prev : ℚ) : List ℚ → List ℚ
  | [] => []
  | x :: rest =>
    let e := al * x + (1 - al) * prev
    e :: emaAux al e rest

/-- pandas ewm(span, adjust=False).mean(): alpha = 2 / (span + 1), seeded with
the first observation. -/
def emaList (span : ℕ) : List ℚ → List ℚ
  | [] => []
  | x :: rest => x :: emaAux (2 / ((span : ℚ) + 1)) x rest

/-- The per-bar true range tail (strategy.py lines 125-128): the elementwise
maximum of high - low, the absolute high to previous close move and the
absolute low to previous close move. -/
def trueRangeAux (prev : Bar) : List Bar → List ℚ
  | [] => []
  | b :: rest =>
    max (b.high - b.low) (max |b.high - prev.close| |b.low - prev.close|) ::
      trueRangeAux b rest

/-- The true range column: at the first bar the shifted close is undefined and
the Python max picks the surviving high - low term. -/
def trueRangeList : List Bar → List ℚ
  | [] => []
  | b0 :: rest => (b0.high - b0.low) :: trueRangeAux b0 rest

/-- One enriched output row of calculate_indicators restricted to the columns
embedded here. Option models a NaN warm-up value. The remaining columns of
the source (rsi, adx, bollinger bands, supertrend, ichimoku, sma_200, candle
patterns) are omitted from this record: no claim consults their values, and
the bollinger standard deviation has no exact rational form. -/
structure IndicatorBar where
  bar : Bar
  sma_short : Option ℚ
  sma_long : Option ℚ
  macd : ℚ
  macd_signal : ℚ
  atr : Option ℚ
  atr_sma : Option ℚ
  volume_sma : Option ℚ
  entry_signal_generated : Bool
  exit_signal_generated : Bool
  deriving DecidableEq

/-- The in-place enrichment body of calculate_indicators (strategy.py lines
107-143) for the embedded columns, one output row per input bar. The dropna
and ffill block at lines 202-214 rebinds only the local name data and never
reaches the frame held by the caller, so the row count is preserved. -/
def enrichBars (cfg : StratConfig) (bars : List Bar) : List IndicatorBar :=
  let closes := bars.map (fun b => b.close)
  let vols := bars.map (fun b => b.volume)
  let emaFast := emaList cfg.macd_fast closes
  let emaSlow := emaList cfg.macd_slow closes
  let macdL := List.zipWith (fun a b => a - b) emaFast emaSlow
  let macdSigL := emaList cfg.macd_signal macdL
  let trL := trueRangeList bars
  let atrL := (List.range bars.length).map (rollingMeanAt cfg.atr_period trL)
  let atrSmaL := (List.range bars.length).map (rollingMeanOptAt cfg.atr_period atrL)
  bars.enum.map (fun ib =>
    { bar := ib.2
      sma_short := rollingMeanAt cfg.sma_short closes ib.1
      sma_long := rollingMeanAt cfg.sma_long closes ib.1
      macd := macdL.getD ib.1 0
      macd_signal := macdSigL.getD ib.1 0
      atr := atrL.getD ib.1 none
      atr_sma := atrSmaL.getD ib.1 none
      volume_sma := rollingMeanAt cfg.volume_sma_period vols ib.1
      entry_signal_generated := false
      exit_signal_generated := false })

/-- Strategy.calculate_indicators (strategy.py lines 78-236): when the bar
count is below the maximum configured lookback the function logs a warning
and returns at line 100 with no indicator column computed for any bar, an
engine-wide no-op modelled as the designated empty result none; otherwise the
whole frame is enriched in one pass. -/
def calculateIndicators (cfg : StratConfig) (bars : List Bar) :
    Option (List IndicatorBar) :=
  if bars.length < minPeriods cfg then none
  else some (enrichBars cfg bars)

/-- A concrete strategy configuration used by the witnesses: lateral mode on,
all optional toggles off, and small lookbacks. -/
def cfgEx : StratConfig :=
  { sma_short := 2, sma_long := 3, rsi_period := 2, macd_fast := 2,
    macd_slow := 3, macd_signal := 2, atr_period := 2, adx_period := 2,
    volume_sma_period := 2, bollinger_period := 2,
    lateral_adx_threshold := 25, macd_threshold := 0, rsi_threshold := 70,
    adx_threshold := 20, use_supertrend := false, use_adx_positive := false,
    use_macd_positive := false, lateral_mode := true, support_margin := 1,
    resistance_margin := 1, trailing_stop_percentage := 1/20,
    stop_loss_atr_multiplier := 1, stop_loss_multiplier := 1,
    take_profit_multiplier := 100, time_based_stop_days := 0,
    time_based_stop_loss_percent := 0 }

/-- A concrete backtester configuration with the default spread 0.00015 and
slippage 0.0001 from backtest.py lines 52-53 and Scenario C fee rate. -/
def btEx : BTConfig :=
  { initial_capital := 1000, trade_fee := 1/1000, investment_fraction := 1,
    spread := 3/20000, slippage := 1/10000 }

/-- A concrete enriched row at timestamp 100 whose indicator values satisfy
every trend entry condition; it serves as the predecessor row. -/
def rowA : Row :=
  { time := 100, close := 100, volume := 200, sma_short := 11, sma_long := 10,
    rsi := 50, macd := 1, macd_signal := 0, atr := 2, atr_sma := 1, adx := 30,
    volume_sma := 100, bollinger_upper := 120, bollinger_lower := 80,
    supertrend := 1, entry_signal_generated := false,
    exit_signal_generated := false }

/-- The same enriched values at timestamp 200; on this row the trend entry
fires when it is not in the future. -/
def rowB : Row := { rowA with time := 200 }

/-- An enriched row at timestamp 100 on which no entry fires: the short
moving average is below the long one. -/
def rowC : Row := { rowA with sma_short := 1, sma_long := 2 }

/-- The same no-entry values at timestamp 200. -/
def rowD : Row := { rowC with time := 200 }

/-- A strategy state with an open position entered at price 100 and
timestamp 100. -/
def sOpen : StratState :=
  { last_entry_time := some 100, position_open := true,
    highest_price := some 100, entry_price := some 100,
    is_range_trading := false }

/-- The Strategy state right after entry_signal fires on a row: entry price
and high-water mark snapshot the close, the entry timestamp is recorded, and
the regime flag records whether the range branch was taken. -/
def fireState (cfg : StratConfig) (row : Row) : StratState :=
  { last_entry_time := some row.time
    position_open := true
    highest_price := some row.close
    entry_price := some row.close
    is_range_trading := cfg.lateral_mode && decide (row.adx < cfg.lateral_adx_threshold) }

/-- The single trade produced by running the simulator on [rowA, rowB] with
btEx and a clock past both bars: entry on rowB at the adjusted price
100 * 1.00025, forced close at the last close adjusted downwards. -/
def trC : TradeRec :=
  { trade_id := 1, entry_price := 4001/40, entry_time := 200,
    exit_price := 3999/40, exit_time := 200, shares := 40000/4001,
    profit := -10000/4001 }

/-- The full simulator state after running on [rowA, rowB] with btEx and a
clock past both bars: one force-closed trade, and a Strategy state still
reporting an open position. -/
def stC : BTState :=
  { capital := 3991000/4001, trades := [trC], trade_id := 1, position := none,
    strat := { last_entry_time := some 200, position_open := true,
               highest_price := some 100, entry_price := some 100,
               is_range_trading := false } }

/-- The simulator state after running on the no-entry rows [rowC, rowD]:
no trades, everything at its initial value. -/
def stQ : BTState :=
  { capital := 1000, trades := [], trade_id := 0, position := none,
    strat := initStrat }

theorem toNat_decide (p : Prop) [Decidable p] :
    (decide p).toNat = if p then 1 else 0 := by
  by_cases h : p <;> simp [h]

theorem toNat_notor_decide (b : Bool) (p : Prop) [Decidable p] :
    (!b || decide p).toNat = if b = false ∨ p then 1 else 0 := by
  cases b <;> by_cases h : p <;> simp [h]

theorem trendSecondaryCount_eq (cfg : StratConfig) (row : Row) :
    trendSecondaryCount cfg row =
      (if row.volume > (6/5 : ℚ) * row.volume_sma then 1 else 0) +
      (if cfg.use_supertrend = false ∨ row.supertrend = 1 then 1 else 0) +
      (if cfg.use_adx_positive = false ∨ row.adx > cfg.adx_threshold then 1 else 0) +
      (if cfg.use_macd_positive = false ∨ row.macd > 0 then 1 else 0) +
      (if row.atr > row.atr_sma then 1 else 0) := by
  unfold trendSecondaryCount
  rw [toNat_decide, toNat_decide, toNat_notor_decide, toNat_notor_decide,
    toNat_notor_decide]

theorem entrySignal_cases (cfg : StratConfig) (now : ℤ) (s : StratState)
    (row : Row) (prev : Option Row) :
    entrySignal cfg now s row prev = (false, s) ∨
    entrySignal cfg now s row prev = (false, { s with is_range_trading := false }) ∨
    entrySignal cfg now s row prev = (true, fireState cfg row) := by
  by_cases h1 : now < row.time
  · exact Or.inl (by simp [entrySignal, h1])
  by_cases h2 : (row.entry_signal_generated || s.position_open) = true
  · exact Or.inl (by simp [entrySignal, h1, h2])
  rcases prev with _ | p
  · exact Or.inl (by simp [entrySignal, h1, h2])
  by_cases h4 : (cfg.lateral_mode && decide (row.adx < cfg.lateral_adx_threshold)) = true
  · by_cases h5 : entryDecision cfg row (p := p) = true
    · refine Or.inr (Or.inr ?_)
      simp [entrySignal, h1, h2, h4, h5, fireState]
    · exact Or.inr (Or.inl (by simp [entrySignal, h1, h2, h4, h5]))
  · by_cases h5 : entryDecision cfg row (p := p) = true
    · refine Or.inr (Or.inr ?_)
      simp [entrySignal, h1, h2, h4, h5, fireState]
    · exact Or.inr (Or.inl (by simp [entrySignal, h1, h2, h4, h5]))

theorem entrySignal_fire_snd (cfg : StratConfig) (now : ℤ) (s : StratState)
    (row : Row) (prev : Option Row)
    (h : (entrySignal cfg now s row prev).1 = true) :
    (entrySignal cfg now s row prev).2 = fireState cfg row := by
  rcases entrySignal_cases cfg now s row prev with h1 | h1 | h1
  · rw [h1] at h; exact absurd h (by simp)
  · rw [h1] at h; exact absurd h (by simp)
  · rw [h1]

theorem entrySignal_fire_fst (cfg : StratConfig) (now : ℤ) (s : StratState)
    (row : Row) (prev : Option Row)
    (h : (entrySignal cfg now s row prev).1 = true) : ¬ now < row.time := by
  intro h1
  rw [show entrySignal cfg now s row prev = (false, s) from by
    simp [entrySignal, h1]] at h
  exact absurd h (by simp)

theorem exitSignal_cases (cfg : StratConfig) (now : ℤ) (s : StratState)
    (row : Row) :
    exitSignal cfg now s row = (false, s) ∨
    (∃ hp0, s.highest_price = some hp0 ∧
      exitSignal cfg now s row =
        (false, { s with highest_price := some (max hp0 row.close) })) ∨
    exitSignal cfg now s row = (true, initStrat) := by
  obtain ⟨lt, po, hp, ep, ir⟩ := s
  by_cases h1 : now < row.time
  · exact Or.inl (by simp [exitSignal, h1])
  by_cases h2 : (row.exit_signal_generated || !po || decide (lt = some row.time)) = true
  · exact Or.inl (by simp [exitSignal, h1, h2])
  rcases lt with _ | le
  · exact Or.inl (by simp [exitSignal, h1, h2])
  rcases hp with _ | hp0
  · exact Or.inl (by simp [exitSignal, h1, h2])
  rcases ep with _ | ep0
  · exact Or.inl (by simp [exitSignal, h1, h2])
  have h2' : (row.exit_signal_generated = false ∧ po = true) ∧ ¬le = row.time := by
    simpa using h2
  by_cases h6 : exitDecision cfg ir row le (max hp0 row.close) ep0 = true
  · exact Or.inr (Or.inr (by
      simp [exitSignal, h1, h2'.1.1, h2'.1.2, h2'.2, h6, initStrat]))
  · exact Or.inr (Or.inl ⟨hp0, rfl, by
      simp [exitSignal, h1, h2'.1.1, h2'.1.2, h2'.2, h6]⟩)

theorem entrySignal_fst_eq (cfg : StratConfig) (now : ℤ) (s : StratState)
    (row p : Row) (h1 : ¬ now < row.time)
    (hgen : row.entry_signal_generated = false)
    (hflat : s.position_open = false) :
    (entrySignal cfg now s row (some p)).1 = entryDecision cfg row p := by
  cases hsig : entryDecision cfg row p <;>
    simp [entrySignal, h1, hgen, hflat, hsig]

/-- C2: on a bar evaluated while FLAT and classified as non-range (adx not
below the lateral threshold), entry_signal returns true exactly when the
three primary trend conditions all hold and at least 3 of the 5 secondary
conditions hold, optional toggled-off conditions counting as satisfied. -/
theorem c2_trend_entry_iff (cfg : StratConfig) (now : ℤ) (s : StratState)
    (row p : Row)
    (hflat : s.position_open = false)
    (hgen : row.entry_signal_generated = false)
    (htime : row.time ≤ now)
    (hlat : ¬ row.adx < cfg.lateral_adx_threshold) :
    ((entrySignal cfg now s row (some p)).1 = true ↔
      (((row.sma_short > row.sma_long ∧ p.sma_short > p.sma_long) ∧
        row.macd > row.macd_signal - cfg.macd_threshold ∧
        row.rsi < cfg.rsi_threshold) ∧
      3 ≤ ((if row.volume > (6/5 : ℚ) * row.volume_sma then 1 else 0) +
        (if cfg.use_supertrend = false ∨ row.supertrend = 1 then 1 else 0) +
        (if cfg.use_adx_positive = false ∨ row.adx > cfg.adx_threshold then 1 else 0) +
        (if cfg.use_macd_positive = false ∨ row.macd > 0 then 1 else 0) +
        (if row.atr > row.atr_sma then 1 else 0) : ℕ))) := by
  rw [entrySignal_fst_eq cfg now s row p (not_lt.2 htime) hgen hflat]
  simp [entryDecision, hlat, trendMainPass, trendSecondaryCount_eq, and_assoc]

/-- Witness for C2 at the concrete non-range row rowB, where all conditions
hold and the signal fires. -/
theorem c2_witness :
    (entrySignal cfgEx 1000 initStrat rowB (some rowA)).1 = true ↔
      (((rowB.sma_short > rowB.sma_long ∧ rowA.sma_short > rowA.sma_long) ∧
        rowB.macd > rowB.macd_signal - cfgEx.macd_threshold ∧
        rowB.rsi < cfgEx.rsi_threshold) ∧
      3 ≤ ((if rowB.volume > (6/5 : ℚ) * rowB.volume_sma then 1 else 0) +
        (if cfgEx.use_supertrend = false ∨ rowB.supertrend = 1 then 1 else 0) +
        (if cfgEx.use_adx_positive = false ∨ rowB.adx > cfgEx.adx_threshold then 1 else 0) +
        (if cfgEx.use_macd_positive = false ∨ rowB.macd > 0 then 1 else 0) +
        (if rowB.atr > rowB.atr_sma then 1 else 0) : ℕ)) :=
  c2_trend_entry_iff cfgEx 1000 initStrat rowB rowA rfl rfl
    (by with_unfolding_all decide) (by with_unfolding_all decide)

/-- C3 counterexample: on the default spread and slippage configuration the
single position opened by the run on [rowA, rowB] records
shares = 40000/4001, while capital times investment_fraction divided by the
close of the entry bar is 1000 * 1 / 100 = 10, a different number. -/
theorem c3_counterexample :
    ((runBacktest cfgEx btEx 1000 [rowA, rowB]).map fun st =>
      st.trades.map fun t => t.shares) = some [40000/4001] ∧
    ¬ ((40000/4001 : ℚ) =
      btEx.initial_capital * btEx.investment_fraction / rowB.close) := by
  constructor
  · with_unfolding_all rfl
  · with_unfolding_all decide

/-- C3 amended: the number of shares bought when a position opens equals
(capital * investment_fraction) / entry_price, where the entry price is the
close adjusted upward by spread and slippage; it equals
(capital * investment_fraction) / close only when spread + slippage = 0. -/
theorem c3_shares_formula (cfg : StratConfig) (bt : BTConfig) (now : ℤ)
    (st : BTState) (row : Row) (prev : Option Row)
    (hpos : st.position = none)
    (hfire : (entrySignal cfg now st.strat row prev).1 = true) :
    (btStep cfg bt now st (row, prev)).position = some
      { trade_id := st.trade_id + 1
        entry_price := row.close * (1 + bt.spread + bt.slippage)
        entry_time := row.time
        shares := st.capital * bt.investment_fraction /
          (row.close * (1 + bt.spread + bt.slippage)) } := by
  simp [btStep, hpos, hfire]

/-- Witness for C3 amended at the concrete entry on rowB. -/
theorem c3_witness :
    (btStep cfgEx btEx 1000 (btInit btEx) (rowB, some rowA)).position = some
      { trade_id := (btInit btEx).trade_id + 1
        entry_price := rowB.close * (1 + btEx.spread + btEx.slippage)
        entry_time := rowB.time
        shares := (btInit btEx).capital * btEx.investment_fraction /
          (rowB.close * (1 + btEx.spread + btEx.slippage)) } :=
  c3_shares_formula cfgEx btEx 1000 (btInit btEx) rowB (some rowA) rfl
    (by with_unfolding_all rfl)

/-- C7: if the bar sequence is shorter than the maximum configured lookback
the Indicator Engine produces the designated empty result (an engine-wide
no-op, with no indicator field computed for any bar), and it does so exactly
in that case. -/
theorem c7_insufficient_data (cfg : StratConfig) (bars : List Bar) :
    calculateIndicators cfg bars = none ↔ bars.length < minPeriods cfg := by
  by_cases h : bars.length < minPeriods cfg <;> simp [calculateIndicators, h]

/-- C5: calling exit_signal while FLAT, or entry_signal while a position is
open, returns no signal and leaves every field of the engine state
unchanged. -/
theorem c5_wrong_state_noop (cfg : StratConfig) (now : ℤ) (s : StratState)
    (row : Row) (prev : Option Row) :
    (s.position_open = true → entrySignal cfg now s row prev = (false, s)) ∧
    (s.position_open = false → exitSignal cfg now s row = (false, s)) := by
  constructor
  · intro h
    by_cases h1 : now < row.time
    · simp [entrySignal, h1]
    · simp [entrySignal, h1, h]
  · intro h
    by_cases h1 : now < row.time
    · simp [exitSignal, h1]
    · simp [exitSignal, h1, h]

/-- Witness for C5 at a concrete open state and a concrete flat state. -/
theorem c5_witness :
    entrySignal cfgEx 1000 sOpen rowB (some rowA) = (false, sOpen) ∧
    exitSignal cfgEx 1000 initStrat rowB = (false, initStrat) :=
  ⟨(c5_wrong_state_noop cfgEx 1000 sOpen rowB (some rowA)).1 rfl,
   (c5_wrong_state_noop cfgEx 1000 initStrat rowB (some rowA)).2 rfl⟩

theorem foldl_pres {α β : Type} (P : β → Prop) (f : β → α → β)
    (hf : ∀ b a, P b → P (f b a)) :
    ∀ (l : List α) (b : β), P b → P (l.foldl f b) := by
  intro l
  induction l with
  | nil => intro b hb; exact hb
  | cons a t ih => intro b hb; exact ih (f b a) (hf b a hb)

theorem closeTrade_profit (bt : BTConfig) (pos : OpenPos) (bp : ℚ) (t : ℤ) :
    (closeTrade bt pos bp t).profit =
      ((closeTrade bt pos bp t).exit_price - (closeTrade bt pos bp t).entry_price) *
        (closeTrade bt pos bp t).shares -
      ((closeTrade bt pos bp t).entry_price + (closeTrade bt pos bp t).exit_price) *
        (closeTrade bt pos bp t).shares * bt.trade_fee := by
  simp [closeTrade]

theorem btStep_account (cfg : StratConfig) (bt : BTConfig) (now : ℤ)
    (st : BTState) (rp : Row × Option Row)
    (h : st.capital = bt.initial_capital + (st.trades.map (fun t => t.profit)).sum ∧
      ∀ t ∈ st.trades, t.profit =
        (t.exit_price - t.entry_price) * t.shares -
        (t.entry_price + t.exit_price) * t.shares * bt.trade_fee) :
    (btStep cfg bt now st rp).capital =
      bt.initial_capital + ((btStep cfg bt now st rp).trades.map (fun t => t.profit)).sum ∧
    ∀ t ∈ (btStep cfg bt now st rp).trades, t.profit =
      (t.exit_price - t.entry_price) * t.shares -
      (t.entry_price + t.exit_price) * t.shares * bt.trade_fee := by
  obtain ⟨hc, hm⟩ := h
  rcases hpos : st.position with _ | pos
  · cases hres : (entrySignal cfg now st.strat rp.1 rp.2).1 <;>
      exact ⟨by simp [btStep, hpos, hres, hc], by simpa [btStep, hpos, hres] using hm⟩
  · cases hres : (exitSignal cfg now st.strat rp.1).1
    · exact ⟨by simp [btStep, hpos, hres, hc], by simpa [btStep, hpos, hres] using hm⟩
    · constructor
      · simp [btStep, hpos, hres, hc]
        ring
      · intro t ht
        simp [btStep, hpos, hres] at ht
        rcases ht with ht | ht
        · exact hm t ht
        · subst ht
          exact closeTrade_profit bt pos rp.1.close rp.1.time

theorem finalClose_account (bt : BTConfig) (st : BTState) (rows : List Row)
    (h : st.capital = bt.initial_capital + (st.trades.map (fun t => t.profit)).sum ∧
      ∀ t ∈ st.trades, t.profit =
        (t.exit_price - t.entry_price) * t.shares -
        (t.entry_price + t.exit_price) * t.shares * bt.trade_fee) :
    (finalClose bt st rows).capital =
      bt.initial_capital + ((finalClose bt st rows).trades.map (fun t => t.profit)).sum ∧
    ∀ t ∈ (finalClose bt st rows).trades, t.profit =
      (t.exit_price - t.entry_price) * t.shares -
      (t.entry_price + t.exit_price) * t.shares * bt.trade_fee := by
  obtain ⟨hc, hm⟩ := h
  rcases hpos : st.position with _ | pos
  · exact ⟨by simp [finalClose, hpos, hc], by simpa [finalClose, hpos] using hm⟩
  rcases hlast : rows.getLast? with _ | lastRow
  · exact ⟨by simp [finalClose, hpos, hlast, hc], by simpa [finalClose, hpos, hlast] using hm⟩
  constructor
  · simp [finalClose, hpos, hlast, hc]
    ring
  · intro t ht
    simp [finalClose, hpos, hlast] at ht
    rcases ht with ht | ht
    · exact hm t ht
    · subst ht
      exact closeTrade_profit bt pos lastRow.close lastRow.time

theorem runBacktest_some (cfg : StratConfig) (bt : BTConfig) (now : ℤ)
    (rows : List Row) (st : BTState)
    (h : runBacktest cfg bt now rows = some st) :
    st = finalClose bt (btLoop cfg bt now rows) rows := by
  unfold runBacktest at h
  by_cases he : rows.isEmpty <;> simp [he] at h
  exact h.symm

/-- C1: every trade closed by the simulator, by exit signal or by the forced
end-of-data close, records
net profit = (exit - entry) * shares - (entry + exit) * shares * fee_rate,
and the final capital is the initial capital increased by exactly the net
profit of every closed trade. -/
theorem c1_net_profit_accounting (cfg : StratConfig) (bt : BTConfig) (now : ℤ)
    (rows : List Row) (st : BTState)
    (h : runBacktest cfg bt now rows = some st) :
    (∀ t ∈ st.trades, t.profit =
      (t.exit_price - t.entry_price) * t.shares -
      (t.entry_price + t.exit_price) * t.shares * bt.trade_fee) ∧
    st.capital = bt.initial_capital + (st.trades.map (fun t => t.profit)).sum := by
  rw [runBacktest_some cfg bt now rows st h]
  have hloop := foldl_pres
    (fun s => s.capital = bt.initial_capital + (s.trades.map (fun t => t.profit)).sum ∧
      ∀ t ∈ s.trades, t.profit =
        (t.exit_price - t.entry_price) * t.shares -
        (t.entry_price + t.exit_price) * t.shares * bt.trade_fee)
    (btStep cfg bt now) (btStep_account cfg bt now)
    (pairWithPrev rows none) (btInit bt) (by simp [btInit])
  have hfin := finalClose_account bt (btLoop cfg bt now rows) rows hloop
  exact ⟨hfin.2, hfin.1⟩

/-- Witness for C1 at the concrete forced-close run on [rowA, rowB]. -/
theorem c1_witness :
    trC.profit =
      (trC.exit_price - trC.entry_price) * trC.shares -
      (trC.entry_price + trC.exit_price) * trC.shares * btEx.trade_fee ∧
    stC.capital = btEx.initial_capital + (stC.trades.map (fun t => t.profit)).sum := by
  have h := c1_net_profit_accounting cfgEx btEx 1000 [rowA, rowB] stC
    (by with_unfolding_all rfl)
  exact ⟨h.1 trC (by simp [stC]), h.2⟩

theorem equityCurve_length (init : ℚ) (trades : List TradeRec) :
    (equityCurve init trades).length = trades.length + 1 := by
  induction trades generalizing init with
  | nil => rfl
  | cons t ts ih => simp [equityCurve, ih]

theorem equityCurve_get (init : ℚ) (trades : List TradeRec) :
    ∀ k, k ≤ trades.length →
      (equityCurve init trades)[k]? =
        some (init + ((trades.take k).map (fun t => t.profit)).sum) := by
  induction trades generalizing init with
  | nil =>
    intro k hk
    have : k = 0 := Nat.le_zero.mp hk
    subst this
    simp [equityCurve]
  | cons t ts ih =>
    intro k hk
    cases k with
    | zero => simp [equityCurve]
    | succ k =>
      have hk' : k ≤ ts.length := Nat.succ_le_succ_iff.mp hk
      simp [equityCurve, ih (init + t.profit) k hk', add_assoc]

/-- C4: for every finished run the equity curve has one more point than the
ledger has trades, its k-th point is the initial capital plus the sum of the
first k net profits, and the max drawdown
min(0, min(equity - running max of equity)) is never positive. -/
theorem c4_equity_curve (cfg : StratConfig) (bt : BTConfig) (now : ℤ)
    (rows : List Row) (st : BTState) (k : ℕ)
    (h : runBacktest cfg bt now rows = some st)
    (hk : k ≤ st.trades.length) :
    (equityCurve bt.initial_capital st.trades).length = st.trades.length + 1 ∧
    (equityCurve bt.initial_capital st.trades)[k]? =
      some (bt.initial_capital + ((st.trades.take k).map (fun t => t.profit)).sum) ∧
    maxDrawdown (equityCurve bt.initial_capital st.trades) ≤ 0 :=
  ⟨equityCurve_length bt.initial_capital st.trades,
   equityCurve_get bt.initial_capital st.trades k hk,
   min_le_left 0 _⟩

/-- Witness for C4 at the concrete one-trade run and k = 1. -/
theorem c4_witness :
    (equityCurve btEx.initial_capital stC.trades).length = stC.trades.length + 1 ∧
    (equityCurve btEx.initial_capital stC.trades)[1]? =
      some (btEx.initial_capital + ((stC.trades.take 1).map (fun t => t.profit)).sum) ∧
    maxDrawdown (equityCurve btEx.initial_capital stC.trades) ≤ 0 :=
  c4_equity_curve cfgEx btEx 1000 [rowA, rowB] stC 1
    (by with_unfolding_all rfl) (by simp [stC])

/-- C6: if entry_signal fires on a bar then exit_signal does not fire on that
same bar for the same engine instance, and on a bar where the simulator was
flat no trade is closed, so at most one decision is taken per bar. -/
theorem c6_same_bar_guard (cfg : StratConfig) (bt : BTConfig) (now : ℤ)
    (s : StratState) (row : Row) (prev : Option Row) (st : BTState) :
    ((entrySignal cfg now s row prev).1 = true →
      (exitSignal cfg now (entrySignal cfg now s row prev).2 row).1 = false) ∧
    (st.position = none →
      (btStep cfg bt now st (row, prev)).trades = st.trades) := by
  constructor
  · intro h
    have h1 := entrySignal_fire_fst cfg now s row prev h
    rw [entrySignal_fire_snd cfg now s row prev h]
    simp [exitSignal, h1, fireState]
  · intro h0
    cases hres : (entrySignal cfg now st.strat row prev).1 <;>
      simp [btStep, h0, hres]

/-- Witness for C6: on rowB the entry fires and the exit guard rejects the
same bar; on a flat simulator state this bar closes no trade. -/
theorem c6_witness :
    (exitSignal cfgEx 1000 (entrySignal cfgEx 1000 initStrat rowB (some rowA)).2 rowB).1 = false ∧
    (btStep cfgEx btEx 1000 (btInit btEx) (rowB, some rowA)).trades = (btInit btEx).trades :=
  ⟨(c6_same_bar_guard cfgEx btEx 1000 initStrat rowB (some rowA) (btInit btEx)).1
      (by with_unfolding_all rfl),
   (c6_same_bar_guard cfgEx btEx 1000 initStrat rowB (some rowA) (btInit btEx)).2 rfl⟩

/-- C8: a run whose ledger holds zero trades yields the guarded placeholder
metrics: win rate 0, average trade duration 0, buy-and-hold profit 0, Sharpe
ratio 0 and Sortino ratio 0, with every division guarded. -/
theorem c8_zero_trades_metrics (cfg : StratConfig) (bt : BTConfig) (now : ℤ)
    (rows : List Row) (st : BTState)
    (h : runBacktest cfg bt now rows = some st)
    (hz : st.trades = []) :
    winRate st.trades = 0 ∧
    avgTradeDurationHours st.trades = 0 ∧
    buyHoldProfit bt.initial_capital st.trades = 0 ∧
    sharpe (equityCurve bt.initial_capital st.trades) = 0 ∧
    sortino (equityCurve bt.initial_capital st.trades) = 0 := by
  rw [hz]
  have hr : returnsOf (equityCurve bt.initial_capital []) = [0] := by
    simp [equityCurve, returnsOf]
  have hv : listVar [(0 : ℚ)] = 0 := by
    norm_num [listVar, listMean]
  refine ⟨rfl, rfl, rfl, ?_, ?_⟩
  · simp [sharpe, hr, hv]
  · simp [sortino, downside, hr, hv]

/-- Witness for C8 at the concrete zero-trade run on [rowC, rowD]. -/
theorem c8_witness :
    winRate stQ.trades = 0 ∧
    avgTradeDurationHours stQ.trades = 0 ∧
    buyHoldProfit btEx.initial_capital stQ.trades = 0 ∧
    sharpe (equityCurve btEx.initial_capital stQ.trades) = 0 ∧
    sortino (equityCurve btEx.initial_capital stQ.trades) = 0 :=
  c8_zero_trades_metrics cfgEx btEx 1000 [rowC, rowD] stQ
    (by with_unfolding_all rfl) rfl

/-- C9 counterexample: the same bars and configuration replayed at two
evaluation clocks give different ledgers, because the future-candle guard
consults the wall clock: at clock 150 the bar at timestamp 200 is rejected
and no trade happens, at clock 1000 it is accepted and one trade happens. -/
theorem c9_counterexample :
    ((runBacktest cfgEx btEx 150 [rowA, rowB]).map fun st => st.trades) = some [] ∧
    ((runBacktest cfgEx btEx 1000 [rowA, rowB]).map fun st => st.trades) = some [trC] ∧
    ([] : List TradeRec) ≠ [trC] :=
  ⟨by with_unfolding_all rfl, by with_unfolding_all rfl, by simp⟩

theorem entrySignal_now_indep (cfg : StratConfig) (now1 now2 : ℤ)
    (s : StratState) (row : Row) (prev : Option Row)
    (h1 : row.time ≤ now1) (h2 : row.time ≤ now2) :
    entrySignal cfg now1 s row prev = entrySignal cfg now2 s row prev := by
  unfold entrySignal
  rw [if_neg (not_lt.2 h1), if_neg (not_lt.2 h2)]

theorem exitSignal_now_indep (cfg : StratConfig) (now1 now2 : ℤ)
    (s : StratState) (row : Row)
    (h1 : row.time ≤ now1) (h2 : row.time ≤ now2) :
    exitSignal cfg now1 s row = exitSignal cfg now2 s row := by
  unfold exitSignal
  rw [if_neg (not_lt.2 h1), if_neg (not_lt.2 h2)]

theorem btStep_now_indep (cfg : StratConfig) (bt : BTConfig) (now1 now2 : ℤ)
    (st : BTState) (rp : Row × Option Row)
    (h1 : rp.1.time ≤ now1) (h2 : rp.1.time ≤ now2) :
    btStep cfg bt now1 st rp = btStep cfg bt now2 st rp := by
  rcases hpos : st.position with _ | pos
  · simp only [btStep, hpos]
    rw [entrySignal_now_indep cfg now1 now2 st.strat rp.1 rp.2 h1 h2]
  · simp only [btStep, hpos]
    rw [exitSignal_now_indep cfg now1 now2 st.strat rp.1 h1 h2]

theorem foldl_now_indep (cfg : StratConfig) (bt : BTConfig) (now1 now2 : ℤ) :
    ∀ (l : List (Row × Option Row)) (st : BTState),
      (∀ rp ∈ l, rp.1.time ≤ now1) → (∀ rp ∈ l, rp.1.time ≤ now2) →
      l.foldl (btStep cfg bt now1) st = l.foldl (btStep cfg bt now2) st := by
  intro l
  induction l with
  | nil => intro st _ _; rfl
  | cons a t ih =>
    intro st ha hb
    simp only [List.foldl_cons]
    rw [btStep_now_indep cfg bt now1 now2 st a
      (ha a (List.mem_cons_self a t)) (hb a (List.mem_cons_self a t))]
    exact ih _ (fun rp hrp => ha rp (List.mem_cons_of_mem a hrp))
      (fun rp hrp => hb rp (List.mem_cons_of_mem a hrp))

theorem pairWithPrev_fst_mem :
    ∀ (rows : List Row) (p : Option Row) (rp : Row × Option Row),
      rp ∈ pairWithPrev rows p → rp.1 ∈ rows := by
  intro rows
  induction rows with
  | nil => intro p rp h; simp [pairWithPrev] at h
  | cons r rest ih =>
    intro p rp h
    simp only [pairWithPrev, List.mem_cons] at h
    rcases h with h | h
    · rw [h]; exact List.mem_cons_self r rest
    · exact List.mem_cons_of_mem r (ih (some r) rp h)

/-- C9 amended: the run is a deterministic function of the bars, the
configuration and the evaluation clock; the clock enters only through the
future-candle guard, so two runs whose clocks are not earlier than any bar
timestamp produce identical ledgers and final state, and hence identical
metrics. -/
theorem c9_determinism (cfg : StratConfig) (bt : BTConfig) (now1 now2 : ℤ)
    (rows : List Row)
    (ha : ∀ r ∈ rows, r.time ≤ now1) (hb : ∀ r ∈ rows, r.time ≤ now2) :
    runBacktest cfg bt now1 rows = runBacktest cfg bt now2 rows := by
  unfold runBacktest
  have hl : btLoop cfg bt now1 rows = btLoop cfg bt now2 rows := by
    unfold btLoop
    exact foldl_now_indep cfg bt now1 now2 (pairWithPrev rows none) (btInit bt)
      (fun rp hrp => ha rp.1 (pairWithPrev_fst_mem rows none rp hrp))
      (fun rp hrp => hb rp.1 (pairWithPrev_fst_mem rows none rp hrp))
  rw [hl]

/-- Witness for C9 amended: clocks 1000 and 2000 are both past every bar of
[rowA, rowB] and give the same run. -/
theorem c9_witness :
    runBacktest cfgEx btEx 1000 [rowA, rowB] =
    runBacktest cfgEx btEx 2000 [rowA, rowB] :=
  c9_determinism cfgEx btEx 1000 2000 [rowA, rowB]
    (by with_unfolding_all decide) (by with_unfolding_all decide)

theorem btStep_open_inv (cfg : StratConfig) (bt : BTConfig) (now : ℤ)
    (st : BTState) (rp : Row × Option Row)
    (h : st.position.isSome → st.strat.position_open = true ∧
      st.strat.last_entry_time.isSome ∧ st.strat.highest_price.isSome ∧
      st.strat.entry_price.isSome) :
    (btStep cfg bt now st rp).position.isSome →
      (btStep cfg bt now st rp).strat.position_open = true ∧
      (btStep cfg bt now st rp).strat.last_entry_time.isSome ∧
      (btStep cfg bt now st rp).strat.highest_price.isSome ∧
      (btStep cfg bt now st rp).strat.entry_price.isSome := by
  rcases hpos : st.position with _ | pos
  · cases hres : (entrySignal cfg now st.strat rp.1 rp.2).1
    · intro hcontra
      simp [btStep, hpos, hres] at hcontra
    · intro _
      have hsnd := entrySignal_fire_snd cfg now st.strat rp.1 rp.2 hres
      simp [btStep, hpos, hres, hsnd, fireState]
  · cases hres : (exitSignal cfg now st.strat rp.1).1
    · intro _
      have hinv := h (by simp [hpos])
      rcases exitSignal_cases cfg now st.strat rp.1 with hc | ⟨hp0, hhp, hc⟩ | hc
      · simpa [btStep, hpos, hres, hc] using hinv
      · simp [btStep, hpos, hres, hc]
        exact ⟨hinv.1, hinv.2.1, hinv.2.2.2⟩
      · rw [hc] at hres
        exact absurd hres (by simp)
    · intro hcontra
      simp [btStep, hpos, hres] at hcontra

/-- C10: when the run ends in a forced close only the simulator-local
position is cleared; the Strategy state is exactly the loop state, still
reporting an open position with its entry fields set, while the final
simulator position is none. The Strategy flag is reset only by a close that
goes through exit_signal. -/
theorem c10_forced_close_frame (cfg : StratConfig) (bt : BTConfig) (now : ℤ)
    (rows : List Row) (st : BTState)
    (h : runBacktest cfg bt now rows = some st)
    (hopen : (btLoop cfg bt now rows).position.isSome) :
    st.strat = (btLoop cfg bt now rows).strat ∧
    st.strat.position_open = true ∧
    st.strat.last_entry_time.isSome ∧
    st.strat.highest_price.isSome ∧
    st.strat.entry_price.isSome ∧
    st.position = none := by
  have hne : ¬ rows.isEmpty = true := by
    intro he
    unfold runBacktest at h
    simp [he] at h
  have hst := runBacktest_some cfg bt now rows st h
  have hinv := foldl_pres
    (fun s => s.position.isSome → s.strat.position_open = true ∧
      s.strat.last_entry_time.isSome ∧ s.strat.highest_price.isSome ∧
      s.strat.entry_price.isSome)
    (btStep cfg bt now) (btStep_open_inv cfg bt now)
    (pairWithPrev rows none) (btInit bt) (by simp [btInit])
  have hfacts := hinv hopen
  rcases hpos : (btLoop cfg bt now rows).position with _ | pos
  · rw [hpos] at hopen
    exact absurd hopen (by simp)
  rcases hlast : rows.getLast? with _ | lastRow
  · exact absurd (List.isEmpty_iff.mpr (List.getLast?_eq_none_iff.mp hlast)) hne
  have hstrat : (finalClose bt (btLoop cfg bt now rows) rows).strat =
      (btLoop cfg bt now rows).strat := by
    simp [finalClose, hpos, hlast]
  have hposnone : (finalClose bt (btLoop cfg bt now rows) rows).position = none := by
    simp [finalClose, hpos, hlast]
  rw [hst, hstrat]
  exact ⟨rfl, hfacts.1, hfacts.2.1, hfacts.2.2.1, hfacts.2.2.2, hposnone⟩

/-- Witness for C10 at the concrete forced-close run on [rowA, rowB]: the
final Strategy state still reports an open position. -/
theorem c10_witness :
    stC.strat = (btLoop cfgEx btEx 1000 [rowA, rowB]).strat ∧
    stC.strat.position_open = true ∧
    stC.strat.last_entry_time.isSome ∧
    stC.strat.highest_price.isSome ∧
    stC.strat.entry_price.isSome ∧
    stC.position = none :=
  c10_forced_close_frame cfgEx btEx 1000 [rowA, rowB] stC
    (by with_unfolding_all rfl) (by with_unfolding_all rfl)

end Cryptobot
